import Mathlib

/-!
Shallow embedding of the xecli tool manager (src/xecli/__init__.py):
release resolution, install/update/remove over the tools registry,
config listing and bulk delete, backup auto-naming, and registry load.
Python dicts are modelled as association lists with update-or-append
assignment; the filesystem is a list of present paths; network calls are
parameters of an environment record, and the URLs actually requested are
returned as a trace.
-/

namespace Xecli

/-- `GITHUB` constant from the source: the organization name. -/
def GITHUB : String := "xEclipsity"

/-- `EXCLUDED_REPOS` constant from the source. -/
def EXCLUDED_REPOS : List String := [".github"]

/-- Python `str.lower()` restricted to ASCII, as used on asset names. -/
def pyLower (s : String) : String := ⟨s.data.map Char.toLower⟩

/-- Python `str.endswith(suffix)`. -/
def pyEndsWith (s suffix : String) : Bool :=
  s.data.reverse.take suffix.data.length == suffix.data.reverse

/-- Python `str.startswith(p)`. -/
def pyStartsWith (s p : String) : Bool := s.data.take p.data.length == p.data

/-- Python slicing off the last `n` characters (`Path.stem` on a `.json`
file name). -/
def pyDropRight (s : String) (n : Nat) : String :=
  ⟨s.data.take (s.data.length - n)⟩

/-- Python `str.split(sep)` for a one-character separator, on the
character list. -/
def splitChars (sep : Char) : List Char → List (List Char)
  | [] => [[]]
  | c :: rest =>
      let r := splitChars sep rest
      if c == sep then [] :: r
      else match r with
        | [] => [[c]]
        | h :: t => (c :: h) :: t

/-- Python `s.isdigit()` followed by `int(s)`: `some` exactly for a
non-empty all-digit string. -/
def digitsToNat (l : List Char) : Option Nat :=
  if l.isEmpty then none
  else if l.all Char.isDigit then
    some (l.foldl (fun n c => n * 10 + (c.toNat - 48)) 0)
  else none

/-- Lexicographic (code-point) comparison, Python's string `<=`. -/
def charListLe : List Char → List Char → Bool
  | [], _ => true
  | _ :: _, [] => false
  | a :: as, b :: bs =>
      if a < b then true
      else if b < a then false
      else charListLe as bs

/-- Insert into a sorted list (auxiliary to `pySorted`). -/
def pySortedInsert (x : String) : List String → List String
  | [] => [x]
  | y :: ys =>
      if charListLe x.data y.data then x :: y :: ys else y :: pySortedInsert x ys

/-- Python `sorted()` on strings: lexicographic insertion sort. -/
def pySorted : List String → List String
  | [] => []
  | x :: xs => pySortedInsert x (pySorted xs)

/-- One release asset: `name` and `browser_download_url` fields of the JSON. -/
structure Asset where
  name : String
  browser_download_url : String
deriving DecidableEq

/-- The fields of the latest-release JSON used by the code: `tag_name`
(`none` when the key is absent), the asset list, and `zipball_url`
(`none` when absent; Python also treats an empty string as falsy). -/
structure Release where
  tag_name : Option String
  assets : List Asset
  zipball_url : Option String
deriving DecidableEq

/-- `release.get("tag_name", "latest")`. -/
def tagOf (release : Release) : String := release.tag_name.getD "latest"

/-- The per-asset test of the selection loop in `download_update`
(lines 2061-2068): `n = a["name"].lower()`; on Windows pick `.exe`,
otherwise pick `.tar.gz` or `.zip`. -/
def assetMatches (system : String) (assetName : String) : Bool :=
  let n := pyLower assetName
  if system == "windows" then pyEndsWith n ".exe"
  else pyEndsWith n ".tar.gz" || pyEndsWith n ".zip"

/-- The `for a in assets` loop of `download_update`: first match wins. -/
def selectAsset (system : String) : List Asset → Option Asset
  | [] => none
  | a :: rest =>
      if assetMatches system a.name then some a else selectAsset system rest

/-- Result of release resolution: download URL, file name, version tag. -/
structure Resolved where
  dl_url : String
  file_name : String
  tag_name : String
deriving DecidableEq

/-- Release-mode resolution in `download_update` (lines 2056-2077): pick an
asset, else fall back to `zipball_url` (failing when it is absent or falsy),
building the file name `<name>-<tag>-<assetName>` or `<name>-<tag>.zip`. -/
def resolveRelease (name : String) (system : String) (release : Release) :
    Except String Resolved :=
  let tag_name := tagOf release
  match selectAsset system release.assets with
  | some a =>
      .ok { dl_url := a.browser_download_url
            file_name := name ++ "-" ++ tag_name ++ "-" ++ a.name
            tag_name := tag_name }
  | none =>
      match release.zipball_url with
      | none => .error ("Couldn't find releases for: " ++ name)
      | some u =>
          if u = "" then .error ("Couldn't find releases for: " ++ name)
          else
            .ok { dl_url := u
                  file_name := name ++ "-" ++ tag_name ++ ".zip"
                  tag_name := tag_name }

/-- Branch-mode resolution in `download_update` (lines 2043-2046). -/
def resolveBranch (name branch : String) : Resolved :=
  { dl_url := "https://github.com/" ++ GITHUB ++ "/" ++ name ++
      "/archive/refs/heads/" ++ branch ++ ".zip"
    file_name := name ++ "-" ++ branch ++ ".zip"
    tag_name := "branch-" ++ branch }

/-- The latest-release metadata URL built throughout the source. -/
def apiReleaseUrl (name : String) : String :=
  "https://api.github.com/repos/" ++ GITHUB ++ "/" ++ name ++ "/releases/latest"

/-- Python truthiness of an optional string argument (`if branch:`). -/
def optTruthy : Option String → Bool
  | none => false
  | some s => !(s == "")

/-- One installed-tool record as written to `tools.json` (lines 2121-2128). -/
structure ToolRecord where
  version : String
  file : String
  os : String
  installed_at : String
  branch : Option String
deriving DecidableEq

/-- Python dict assignment `d[k] = v`: replace in place when the key exists,
append otherwise. -/
def dictInsert (d : List (String × ToolRecord)) (k : String) (v : ToolRecord) :
    List (String × ToolRecord) :=
  if d.any (fun p => p.1 == k) then
    d.map (fun p => if p.1 == k then (k, v) else p)
  else d ++ [(k, v)]

/-- Python dict `d.pop(k)` (restricted to the mapping that remains). -/
def dictPop (d : List (String × ToolRecord)) (k : String) :
    List (String × ToolRecord) :=
  d.filter (fun p => !(p.1 == k))

/-- Local state: the parsed `tools.json` registry and the set of paths
present on disk. -/
structure State where
  tools : List (String × ToolRecord)
  files : List String
deriving DecidableEq

/-- Writing a file creates the path if absent (overwrite keeps it). -/
def insertFile (files : List String) (p : String) : List String :=
  if files.contains p then files else files ++ [p]

/-- `download_dir / file_name`. -/
def joinPath (dir file : String) : String := dir ++ "/" ++ file

/-- Environment of one run: host platform string (already lowered), the
response of the latest-release metadata request (the same response for every
metadata request of the run, as execution is single-threaded and
deterministic), whether the streamed artifact download succeeds, the
configured download directory, and the current timestamp. -/
structure DownloadEnv where
  system : String
  release : Except String Release
  download_ok : Bool
  download_dir : String
  now : String

/-- Errors surfaced by `install`: the excluded-repository rejection
(before any network call) or a propagated exception message. -/
inductive InstallError
  | invalidTarget
  | other (msg : String)
deriving DecidableEq

/-- The resolution block of `download_update` (lines 2043-2084): branch mode
builds the archive target deterministically with no request; release mode
issues the metadata request and resolves against the response. Returns the
outcome together with the URLs requested. -/
def resolve_step (env : DownloadEnv) (name : String) (branch : Option String) :
    Except String Resolved × List String :=
  if optTruthy branch then (.ok (resolveBranch name (branch.getD "")), [])
  else
    match env.release with
    | .error e => (.error e, [apiReleaseUrl name])
    | .ok release => (resolveRelease name env.system release, [apiReleaseUrl name])

/-- `download_update(name, branch)` (lines 2040-2137): resolve (branch mode
or release mode), stream the artifact to `download_dir / file_name`, then
reload the registry, assign the fresh record (with a `branch` field only
when a truthy branch was given) and save. Returns the outcome together
with the list of URLs requested, in order. -/
def download_update (env : DownloadEnv) (name : String) (branch : Option String)
    (st : State) : Except String (State × Resolved) × List String :=
  match resolve_step env name branch with
  | (.error e, reqs) => (.error e, reqs)
  | (.ok res, reqs) =>
      let dest_path := joinPath env.download_dir res.file_name
      if env.download_ok then
        let rec0 : ToolRecord :=
          { version := res.tag_name
            file := dest_path
            os := env.system
            installed_at := env.now
            branch := if optTruthy branch then branch else none }
        (.ok ({ tools := dictInsert st.tools name rec0
                files := insertFile st.files dest_path }, res),
         reqs ++ [res.dl_url])
      else (.error "download failed", reqs ++ [res.dl_url])

/-- `install(name, branch)` (lines 1269-1298): reject excluded repositories
before any request, otherwise run `download_update`; any exception is
reported as a failure. -/
def install (env : DownloadEnv) (name : String) (branch : Option String)
    (st : State) : Except InstallError (State × Resolved) × List String :=
  if EXCLUDED_REPOS.contains name then (.error .invalidTarget, [])
  else
    match download_update env name branch st with
    | (.error e, reqs) => (.error (.other e), reqs)
    | (.ok r, reqs) => (.ok r, reqs)

/-- `update_single(name)` (lines 2011-2037): load the registry, fetch the
latest-release metadata, short-circuit when the stored version equals the
resolved tag (result carries `none`), otherwise run `download_update(name)`
with no branch argument (result carries the resolution). -/
def update_single (env : DownloadEnv) (name : String) (st : State) :
    Except String (State × Option Resolved) × List String :=
  let local_version := (st.tools.lookup name).map ToolRecord.version
  match env.release with
  | .error e => (.error e, [apiReleaseUrl name])
  | .ok release =>
      let latest_tag := tagOf release
      if local_version = some latest_tag then (.ok (st, none), [apiReleaseUrl name])
      else
        match download_update env name none st with
        | (.error e, reqs) => (.error e, apiReleaseUrl name :: reqs)
        | (.ok (st', res), reqs) => (.ok (st', some res), apiReleaseUrl name :: reqs)

/-- Accumulated outcome of `update --all`: tools attempted, names appended
to `failed`, the error messages echoed for each failure, final state. -/
structure BatchResult where
  attempted : Nat
  failed : List String
  messages : List String
  final : State
deriving DecidableEq

/-- The `for tool_name in tools.keys()` loop of `update --all`
(lines 1499-1506): each tool is tried; on an exception the message
`Failed to update <name>: <e>` is echoed and the name recorded, and the
loop continues with the next tool. -/
def update_all_go (envOf : String → DownloadEnv) :
    List String → State → BatchResult
  | [], st => { attempted := 0, failed := [], messages := [], final := st }
  | n :: rest, st =>
      match (update_single (envOf n) n st).1 with
      | .ok (st', _) =>
          let r := update_all_go envOf rest st'
          { r with attempted := r.attempted + 1 }
      | .error e =>
          let r := update_all_go envOf rest st
          { r with attempted := r.attempted + 1
                   failed := n :: r.failed
                   messages := ("Failed to update " ++ n ++ ": " ++ e) :: r.messages }

/-- `update --all` (lines 1483-1514): snapshot the registry keys once and
run the loop over them. -/
def update_all (envOf : String → DownloadEnv) (st : State) : BatchResult :=
  update_all_go envOf (st.tools.map Prod.fst) st

/-- Outcome reported by `remove` (lines 1536-1601). -/
inductive RemoveOutcome
  | notInstalled
  | dryRunReport (version file : String) (fileExists : Bool)
  | removed (warnedMissing : Bool)
deriving DecidableEq

/-- `remove(name, dry_run)` (lines 1536-1601): unknown tools warn and
return; a dry run reports and returns before touching anything; otherwise
delete the artifact if present (warn when already gone), pop the registry
entry and save. -/
def remove (st : State) (name : String) (dry_run : Bool) :
    State × RemoveOutcome :=
  match st.tools.lookup name with
  | none => (st, .notInstalled)
  | some r =>
      let file_path := r.file
      if dry_run then
        (st, .dryRunReport r.version file_path (st.files.contains file_path))
      else
        let existed := st.files.contains file_path
        ({ tools := dictPop st.tools name
           files := if existed then st.files.filter (fun q => !(q == file_path))
                    else st.files },
         .removed (!existed))

/-- One line appended to `xecli.log`: message and level. -/
structure LogEntry where
  message : String
  level : String
deriving DecidableEq

/-- Content of the `tools.json` store file: absent, present but not valid
JSON (carrying the decode-error text), or a parsed registry document. -/
inductive FileContent
  | missing
  | invalidJson (err : String)
  | registry (tools : List (String × ToolRecord))
deriving DecidableEq

/-- `load_tools()` (lines 112-120): missing file yields an empty registry;
a JSON decode error is caught, logged at level ERROR and yields an empty
registry; a parseable file yields its document. The function always
returns (never raises) in these cases. -/
def load_tools_file : FileContent → List (String × ToolRecord) × List LogEntry
  | .missing => ([], [])
  | .invalidJson e =>
      ([], [{ message := "Failed to parse tools.json: " ++ e, level := "ERROR" }])
  | .registry t => (t, [])

/-- A config value as stored in `config.json`: a string or a boolean. -/
inductive ConfigVal
  | str (s : String)
  | bool (b : Bool)
deriving DecidableEq

/-- Python `str(value)` on a config value. -/
def pyStr : ConfigVal → String
  | .str s => s
  | .bool b => if b then "True" else "False"

/-- Python truthiness of a config value. -/
def truthyVal : ConfigVal → Bool
  | .str s => !(s == "")
  | .bool b => b

/-- The rows printed by `config list` (lines 1660-1662): every entry whose
key does not start with an underscore, rendered with `str`. -/
def config_list_rows (config : List (String × ConfigVal)) :
    List (String × String) :=
  config.filterMap (fun p =>
    if pyStartsWith p.1 "_" then none else some (p.1, pyStr p.2))

/-- `config delete --all` (lines 1675-1695): nothing to do on an empty
config; otherwise remember `config.get("_debug", False)`, clear the dict,
and re-add `_debug` only when the remembered value is truthy. -/
def config_delete_all (config : List (String × ConfigVal)) :
    List (String × ConfigVal) :=
  if config.isEmpty then config
  else
    let debug_mode := (config.lookup "_debug").getD (.bool false)
    if truthyVal debug_mode then [("_debug", debug_mode)] else []

/-- `sorted([f.stem for f in BACKUP_DIR.glob("backup_*.json")])`
(lines 1722-1723) over the file names present in the backups directory. -/
def backup_existing (files : List String) : List String :=
  pySorted ((files.filter
      (fun f => pyStartsWith f "backup_" && pyEndsWith f ".json")).map
    (fun f => pyDropRight f 5))

/-- The comprehension of line 1725-1726: the integer second `_`-separated
component of each stem, kept when it is a digit string
(`b.split("_")[1].isdigit()` then `int(...)`, which is `String.toNat?`). -/
def backup_indices (files : List String) : List Nat :=
  (backup_existing files).filterMap
    (fun b => digitsToNat ((splitChars '_' b.data).getD 1 []))

/-- Auto-naming in `backup create` with no name (lines 1721-1729):
`backup_1` when the glob matches nothing; otherwise `backup_<max+1>` over
the parsed indices — and when the glob matched files but no index parsed,
Python's `max([])` raises `ValueError` and backup creation fails. -/
def backup_auto_name (files : List String) : Except String String :=
  let existing_backups := backup_existing files
  if existing_backups.isEmpty then .ok "backup_1"
  else
    match (backup_indices files).max? with
    | none => .error "max() arg is an empty sequence"
    | some last_num => .ok ("backup_" ++ toString (last_num + 1))

/-! ### Helper lemmas -/

theorem lookup_map_replace (d : List (String × ToolRecord)) (k : String)
    (v : ToolRecord) (h : d.any (fun p => p.1 == k) = true) :
    (d.map (fun p => if p.1 == k then (k, v) else p)).lookup k = some v := by
  induction d with
  | nil => simp at h
  | cons hd tl ih =>
      simp only [List.any_cons, Bool.or_eq_true] at h
      rw [List.map_cons]
      by_cases hk : (hd.1 == k) = true
      · rw [if_pos hk]
        simp [List.lookup]
      · have hbeq : (hd.1 == k) = false := by
          revert hk
          cases hd.1 == k <;> simp
        have hkbeq : (k == hd.1) = false :=
          beq_eq_false_iff_ne.mpr (Ne.symm (ne_of_beq_false hbeq))
        rw [if_neg hk]
        simp only [List.lookup, hkbeq]
        exact ih (h.resolve_left hk)

theorem lookup_append_self (d : List (String × ToolRecord)) (k : String)
    (v : ToolRecord) (h : d.any (fun p => p.1 == k) = false) :
    (d ++ [(k, v)]).lookup k = some v := by
  induction d with
  | nil => simp [List.lookup]
  | cons hd tl ih =>
      simp only [List.any_cons, Bool.or_eq_false_iff] at h
      have hkbeq : (k == hd.1) = false :=
        beq_eq_false_iff_ne.mpr (Ne.symm (ne_of_beq_false h.1))
      simp only [List.cons_append, List.lookup, hkbeq]
      exact ih h.2

theorem dictInsert_lookup_self (d : List (String × ToolRecord)) (k : String)
    (v : ToolRecord) : (dictInsert d k v).lookup k = some v := by
  unfold dictInsert
  by_cases h : d.any (fun p => p.1 == k) = true
  · rw [if_pos h]
    exact lookup_map_replace d k v h
  · have h' : d.any (fun p => p.1 == k) = false := by
      revert h
      cases d.any (fun p => p.1 == k) <;> simp
    rw [if_neg h]
    exact lookup_append_self d k v h'

theorem dictPop_lookup_self (d : List (String × ToolRecord)) (k : String) :
    (dictPop d k).lookup k = none := by
  unfold dictPop
  induction d with
  | nil => simp [List.lookup]
  | cons hd tl ih =>
      rw [List.filter_cons]
      by_cases hk : (hd.1 == k) = true
      · rw [if_neg (by simp [hk])]
        exact ih
      · have hbeq : (hd.1 == k) = false := by
          revert hk
          cases hd.1 == k <;> simp
        have hkbeq : (k == hd.1) = false :=
          beq_eq_false_iff_ne.mpr (Ne.symm (ne_of_beq_false hbeq))
        rw [if_pos (by simp [hbeq])]
        simp only [List.lookup, hkbeq]
        exact ih

theorem insertFile_mem (files : List String) (p : String) :
    p ∈ insertFile files p := by
  unfold insertFile
  by_cases h : files.contains p = true
  · rw [if_pos h]
    exact List.mem_of_elem_eq_true h
  · rw [if_neg h]
    exact List.mem_append_right files (List.mem_singleton.mpr rfl)

theorem selectAsset_eq_some (system : String) (l : List Asset) (a : Asset)
    (h : selectAsset system l = some a) :
    assetMatches system a.name = true ∧
      ∃ l1 l2, l = l1 ++ a :: l2 ∧ ∀ b ∈ l1, assetMatches system b.name = false := by
  induction l with
  | nil => simp [selectAsset] at h
  | cons hd tl ih =>
      unfold selectAsset at h
      by_cases hm : assetMatches system hd.name = true
      · simp only [hm, if_true, Option.some.injEq] at h
        subst h
        exact ⟨hm, [], tl, rfl, by simp⟩
      · have hm' : assetMatches system hd.name = false := by
          revert hm
          cases assetMatches system hd.name <;> simp
        simp only [hm', Bool.false_eq_true, if_false] at h
        obtain ⟨hma, l1, l2, hl, hall⟩ := ih h
        refine ⟨hma, hd :: l1, l2, by simp [hl], ?_⟩
        intro b hb
        rcases List.mem_cons.mp hb with hb | hb
        · subst hb; exact hm'
        · exact hall b hb

theorem download_update_ok {env : DownloadEnv} {name : String}
    {branch : Option String} {st st' : State} {res : Resolved}
    {reqs : List String}
    (h : download_update env name branch st = (.ok (st', res), reqs)) :
    env.download_ok = true ∧
    st' = { tools := dictInsert st.tools name
              { version := res.tag_name
                file := joinPath env.download_dir res.file_name
                os := env.system
                installed_at := env.now
                branch := if optTruthy branch then branch else none }
            files := insertFile st.files (joinPath env.download_dir res.file_name) } := by
  unfold download_update at h
  rcases hrs : resolve_step env name branch with ⟨er, reqs0⟩
  rw [hrs] at h
  cases er with
  | error e => simp at h
  | ok res0 =>
      dsimp only at h
      by_cases hdl : env.download_ok = true
      · rw [if_pos hdl] at h
        simp only [Prod.mk.injEq, Except.ok.injEq] at h
        obtain ⟨⟨hst, hres⟩, -⟩ := h
        subst hres
        exact ⟨hdl, hst.symm⟩
      · rw [if_neg hdl] at h
        simp at h

theorem download_update_eq_ok {env : DownloadEnv} {name : String}
    {branch : Option String} {res : Resolved} {reqs0 : List String}
    (st : State)
    (hres : resolve_step env name branch = (.ok res, reqs0))
    (hdl : env.download_ok = true) :
    download_update env name branch st =
      (.ok ({ tools := dictInsert st.tools name
                { version := res.tag_name
                  file := joinPath env.download_dir res.file_name
                  os := env.system
                  installed_at := env.now
                  branch := if optTruthy branch then branch else none }
              files := insertFile st.files (joinPath env.download_dir res.file_name) },
             res),
       reqs0 ++ [res.dl_url]) := by
  unfold download_update
  rw [hres]
  dsimp only
  rw [if_pos hdl]

theorem resolve_step_error_reqs {env : DownloadEnv} {name : String}
    {branch : Option String} {e : String} {reqs : List String}
    (h : resolve_step env name branch = (.error e, reqs)) :
    reqs = [apiReleaseUrl name] := by
  unfold resolve_step at h
  by_cases hb : optTruthy branch = true
  · rw [if_pos hb] at h
    simp at h
  · rw [if_neg hb] at h
    cases hre : env.release with
    | error e' => rw [hre] at h; exact (Prod.mk.injEq .. ▸ h).2.symm
    | ok rel => rw [hre] at h; exact (Prod.mk.injEq .. ▸ h).2.symm

theorem download_update_requests_ne_nil (env : DownloadEnv) (name : String)
    (branch : Option String) (st : State) :
    (download_update env name branch st).2 ≠ [] := by
  unfold download_update
  rcases hrs : resolve_step env name branch with ⟨er, reqs0⟩
  cases er with
  | error e =>
      dsimp only
      rw [resolve_step_error_reqs hrs]
      simp
  | ok res =>
      dsimp only
      by_cases hdl : env.download_ok = true
      · rw [if_pos hdl]
        simp
      · rw [if_neg hdl]
        simp

theorem selectAsset_eq_none_iff (system : String) (l : List Asset) :
    selectAsset system l = none ↔ ∀ b ∈ l, assetMatches system b.name = false := by
  induction l with
  | nil => simp [selectAsset]
  | cons hd tl ih =>
      unfold selectAsset
      by_cases hm : assetMatches system hd.name = true
      · simp [hm]
      · have hm' : assetMatches system hd.name = false := by
          revert hm
          cases assetMatches system hd.name <;> simp
        simp [hm', ih]

/-! ### Concrete fixtures used by witnesses and counterexamples -/

/-- A release for tool `alpha`: tag `v1`, a Linux archive asset first and a
Windows executable second, plus a source-archive URL. -/
def relA : Release :=
  { tag_name := some "v1"
    assets := [{ name := "alpha-linux.tar.gz", browser_download_url := "uA" },
               { name := "alpha.exe", browser_download_url := "uB" }]
    zipball_url := some "uz" }

/-- A run environment on a Linux host where all requests succeed. -/
def envA : DownloadEnv :=
  { system := "linux", release := .ok relA, download_ok := true
    download_dir := "/dl", now := "t1" }

/-- Empty local state: no registry entries, no files. -/
def stEmpty : State := { tools := [], files := [] }

/-- The record written by a successful release-mode install of `alpha`
under `envA`. -/
def recA : ToolRecord :=
  { version := "v1", file := "/dl/alpha-v1-alpha-linux.tar.gz"
    os := "linux", installed_at := "t1", branch := none }

/-- The state after a successful release-mode install of `alpha` under
`envA` starting from `stEmpty`. -/
def stA : State :=
  { tools := [("alpha", recA)], files := ["/dl/alpha-v1-alpha-linux.tar.gz"] }

/-- The resolution produced for `alpha` under `envA`. -/
def resA : Resolved :=
  { dl_url := "uA", file_name := "alpha-v1-alpha-linux.tar.gz", tag_name := "v1" }

/-! ### Claim theorems -/

/-- C1: whenever `install(name)` with no branch completes successfully, the
registry afterwards holds a record for `name` whose `version` equals the tag
the resolver returned in that run and whose file path is the artifact the
download step created on disk. -/
theorem C1_install_registry (env : DownloadEnv) (name : String) (st st' : State)
    (res : Resolved) (reqs : List String)
    (h : install env name none st = (.ok (st', res), reqs)) :
    ∃ r : ToolRecord,
      st'.tools.lookup name = some r ∧
      r.version = res.tag_name ∧
      r.file = joinPath env.download_dir res.file_name ∧
      r.file ∈ st'.files := by
  unfold install at h
  by_cases hex : EXCLUDED_REPOS.contains name = true
  · rw [if_pos hex] at h
    simp at h
  · rw [if_neg hex] at h
    rcases hd : download_update env name none st with ⟨er, reqs0⟩
    rw [hd] at h
    cases er with
    | error e => simp at h
    | ok p =>
        dsimp only at h
        simp only [Prod.mk.injEq, Except.ok.injEq] at h
        obtain ⟨hp, -⟩ := h
        subst hp
        obtain ⟨-, hstruct⟩ := download_update_ok hd
        subst hstruct
        exact ⟨_, dictInsert_lookup_self _ _ _, rfl, rfl, insertFile_mem _ _⟩

/-- C1 witness: a concrete successful install of `alpha` whose registry
record carries the resolved tag and the downloaded artifact path. -/
theorem C1_install_registry_witness :
    ∃ r : ToolRecord,
      stA.tools.lookup "alpha" = some r ∧
      r.version = resA.tag_name ∧
      r.file = joinPath envA.download_dir resA.file_name ∧
      r.file ∈ stA.files :=
  C1_install_registry envA "alpha" stEmpty stA resA
    [apiReleaseUrl "alpha", "uA"] rfl

/-- C2: in release mode the resolver scans the assets in listed order and
selects the first match for the host (case-insensitively `.exe` on Windows,
`.tar.gz`/`.zip` elsewhere), naming the file `<name>-<tag>-<assetName>`;
with no matching asset it falls back to the source-archive URL with file
name `<name>-<tag>.zip`, and it fails exactly when no asset matches and
that URL is absent or empty. -/
theorem C2_release_resolution (name system : String) (rel : Release) :
    (∀ a, selectAsset system rel.assets = some a →
      (assetMatches system a.name = true ∧
        ∃ l1 l2, rel.assets = l1 ++ a :: l2 ∧
          ∀ b ∈ l1, assetMatches system b.name = false) ∧
      resolveRelease name system rel =
        .ok { dl_url := a.browser_download_url
              file_name := name ++ "-" ++ tagOf rel ++ "-" ++ a.name
              tag_name := tagOf rel }) ∧
    ((∀ b ∈ rel.assets, assetMatches system b.name = false) →
      ∀ u, rel.zipball_url = some u → u ≠ "" →
        resolveRelease name system rel =
          .ok { dl_url := u
                file_name := name ++ "-" ++ tagOf rel ++ ".zip"
                tag_name := tagOf rel }) ∧
    ((∃ e, resolveRelease name system rel = .error e) ↔
      ((∀ b ∈ rel.assets, assetMatches system b.name = false) ∧
        (rel.zipball_url = none ∨ rel.zipball_url = some ""))) := by
  refine ⟨?_, ?_, ?_, ?_⟩
  · intro a ha
    refine ⟨selectAsset_eq_some system rel.assets a ha, ?_⟩
    unfold resolveRelease
    rw [ha]
  · intro hall u hu hne
    have hnone : selectAsset system rel.assets = none :=
      (selectAsset_eq_none_iff _ _).mpr hall
    unfold resolveRelease
    rw [hnone, hu]
    dsimp only
    rw [if_neg hne]
  · rintro ⟨e, he⟩
    rcases hsel : selectAsset system rel.assets with _ | a
    · refine ⟨(selectAsset_eq_none_iff _ _).mp hsel, ?_⟩
      unfold resolveRelease at he
      rw [hsel] at he
      rcases hz : rel.zipball_url with _ | u
      · exact .inl rfl
      · rw [hz] at he
        dsimp only at he
        by_cases hu : u = ""
        · subst hu
          exact .inr rfl
        · rw [if_neg hu] at he
          exact absurd he (by simp)
    · unfold resolveRelease at he
      rw [hsel] at he
      exact absurd he (by simp)
  · rintro ⟨hall, hz⟩
    have hnone : selectAsset system rel.assets = none :=
      (selectAsset_eq_none_iff _ _).mpr hall
    rcases hz with hz | hz
    · refine ⟨"Couldn't find releases for: " ++ name, ?_⟩
      unfold resolveRelease
      rw [hnone, hz]
    · refine ⟨"Couldn't find releases for: " ++ name, ?_⟩
      unfold resolveRelease
      rw [hnone, hz]
      dsimp only
      rw [if_pos rfl]

/-- C2 witness: the §8 scenario — on a non-Windows host with assets
`["alpha-linux.tar.gz", "alpha.exe"]` the first archive asset is selected
and the file is named `alpha-v1-alpha-linux.tar.gz`. -/
theorem C2_release_resolution_witness :
    resolveRelease "alpha" "linux" relA =
      .ok { dl_url := "uA"
            file_name := "alpha" ++ "-" ++ tagOf relA ++ "-" ++ "alpha-linux.tar.gz"
            tag_name := tagOf relA } :=
  ((C2_release_resolution "alpha" "linux" relA).1
    { name := "alpha-linux.tar.gz", browser_download_url := "uA" } rfl).2

/-- A run environment whose metadata request fails with a network error. -/
def envErr : DownloadEnv :=
  { system := "linux", release := .error "ConnectionError", download_ok := false
    download_dir := "/dl", now := "t1" }

/-- C3 counterexample: the empty name is not in the excluded set, so
`install("")` is not rejected with `InvalidTarget` — it issues the
latest-release metadata request (a network call) and fails only with the
propagated network error. -/
theorem C3_counterexample :
    ("" : String) ∉ EXCLUDED_REPOS ∧
    (install envErr "" none stEmpty).2 = [apiReleaseUrl ""] ∧
    (install envErr "" none stEmpty).1 = .error (.other "ConnectionError") ∧
    InstallError.other "ConnectionError" ≠ .invalidTarget := by
  exact ⟨by decide, rfl, rfl, by decide⟩

/-- C3 amended: only membership in the excluded-repository set is checked
before the network: every excluded name fails with `InvalidTarget` and no
request, while the empty name is not pre-checked and always reaches a
network request. -/
theorem C3_amended (env : DownloadEnv) (branch : Option String) (st : State) :
    (∀ name, name ∈ EXCLUDED_REPOS →
      install env name branch st = (.error .invalidTarget, [])) ∧
    (install env "" branch st).2 ≠ [] := by
  constructor
  · intro name hname
    unfold install
    rw [if_pos (List.elem_eq_true_of_mem hname)]
  · unfold install
    rw [if_neg (by decide : ¬(EXCLUDED_REPOS.contains "" = true))]
    have hreq := download_update_requests_ne_nil env "" branch st
    rcases hd : download_update env "" branch st with ⟨er, reqs0⟩
    rw [hd] at hreq
    cases er <;> simpa using hreq

/-- C3 witness: the excluded repository `.github` is rejected with
`InvalidTarget` and no network request is made. -/
theorem C3_amended_witness :
    (".github" : String) ∈ EXCLUDED_REPOS ∧
    install envA ".github" none stEmpty = (.error .invalidTarget, []) :=
  ⟨by decide, (C3_amended envA none stEmpty).1 ".github" (by decide)⟩

/-- The remote release seen while updating the branch-installed `alpha`. -/
def rel4 : Release :=
  { tag_name := some "v2"
    assets := [{ name := "alpha-linux.tar.gz", browser_download_url := "uA4" }]
    zipball_url := some "uz4" }

/-- Environment for the update run of the branch-installed `alpha`. -/
def env4 : DownloadEnv :=
  { system := "linux", release := .ok rel4, download_ok := true
    download_dir := "/dl", now := "t1" }

/-- The registry record of `alpha` previously installed from branch `dev`. -/
def rec4 : ToolRecord :=
  { version := "branch-dev", file := "/dl/alpha-dev.zip"
    os := "linux", installed_at := "t0", branch := some "dev" }

/-- Local state with `alpha` installed from branch `dev`. -/
def st4 : State :=
  { tools := [("alpha", rec4)], files := ["/dl/alpha-dev.zip"] }

/-- The record `update` writes for `alpha`: release mode, no branch. -/
def rec4' : ToolRecord :=
  { version := "v2", file := "/dl/alpha-v2-alpha-linux.tar.gz"
    os := "linux", installed_at := "t1", branch := none }

/-- The state after updating the branch-installed `alpha` under `env4`. -/
def st4' : State :=
  { tools := [("alpha", rec4')]
    files := ["/dl/alpha-dev.zip", "/dl/alpha-v2-alpha-linux.tar.gz"] }

/-- The resolution `update` obtains for `alpha` under `env4`. -/
def res4 : Resolved :=
  { dl_url := "uA4", file_name := "alpha-v2-alpha-linux.tar.gz"
    tag_name := "v2" }

/-- C4 counterexample: `alpha` is registered with branch `dev` and is
outdated, yet `update` re-installs it in release mode — the fresh record
carries no branch (not `dev`), and the branch-archive URL is never
requested. -/
theorem C4_counterexample :
    st4.tools.lookup "alpha" = some rec4 ∧
    rec4.branch = some "dev" ∧
    update_single env4 "alpha" st4 =
      (.ok (st4', some res4),
       [apiReleaseUrl "alpha", apiReleaseUrl "alpha", "uA4"]) ∧
    st4'.tools.lookup "alpha" = some rec4' ∧
    rec4'.branch = none ∧
    "https://github.com/xEclipsity/alpha/archive/refs/heads/dev.zip" ∉
      [apiReleaseUrl "alpha", apiReleaseUrl "alpha", "uA4"] := by
  exact ⟨rfl, rfl, rfl, rfl, rfl, by decide⟩

/-- C4 amended: when `update(name)` finds the stored version different from
the freshly resolved tag, it delegates to the full install flow with no
branch argument: the previously recorded branch is ignored and the
re-installed record's branch field is empty. -/
theorem C4_amended (env : DownloadEnv) (name : String) (st st' : State)
    (res : Resolved) (reqs : List String)
    (h : update_single env name st = (.ok (st', some res), reqs)) :
    ∃ r : ToolRecord, st'.tools.lookup name = some r ∧ r.branch = none ∧
      r.version = res.tag_name := by
  unfold update_single at h
  cases hre : env.release with
  | error e => rw [hre] at h; simp at h
  | ok rel =>
      rw [hre] at h
      dsimp only at h
      by_cases hup : (st.tools.lookup name).map ToolRecord.version = some (tagOf rel)
      · rw [if_pos hup] at h
        simp at h
      · rw [if_neg hup] at h
        rcases hd : download_update env name none st with ⟨er, reqs0⟩
        rw [hd] at h
        cases er with
        | error e => simp at h
        | ok p =>
            rcases p with ⟨st2, res2⟩
            dsimp only at h
            simp only [Prod.mk.injEq, Except.ok.injEq, Option.some.injEq] at h
            obtain ⟨⟨hst, hres⟩, -⟩ := h
            subst hst
            subst hres
            obtain ⟨-, hstruct⟩ := download_update_ok hd
            subst hstruct
            exact ⟨_, dictInsert_lookup_self _ _ _, rfl, rfl⟩

/-- C4 witness: the concrete branch-installed `alpha` run, where the
re-installed record indeed has no branch and carries the resolved tag. -/
theorem C4_amended_witness :
    ∃ r : ToolRecord, st4'.tools.lookup "alpha" = some r ∧ r.branch = none ∧
      r.version = res4.tag_name :=
  C4_amended env4 "alpha" st4 st4' res4
    [apiReleaseUrl "alpha", apiReleaseUrl "alpha", "uA4"] rfl

/-- C10: for a name absent from the registry, `update(name)` does not fail:
the missing local version is treated as outdated, a full release-mode
download is performed (the asset URL is requested), and a fresh registry
record is added for the tool. -/
theorem C10_update_missing_tool (env : DownloadEnv) (name : String)
    (st : State) (rel : Release) (res : Resolved)
    (h0 : st.tools.lookup name = none)
    (h1 : env.release = .ok rel)
    (h2 : resolveRelease name env.system rel = .ok res)
    (h3 : env.download_ok = true) :
    ∃ st₂, update_single env name st =
        (.ok (st₂, some res),
         [apiReleaseUrl name, apiReleaseUrl name, res.dl_url]) ∧
      st₂.tools.lookup name = some
        { version := res.tag_name
          file := joinPath env.download_dir res.file_name
          os := env.system
          installed_at := env.now
          branch := none } := by
  have hrs : resolve_step env name none = (.ok res, [apiReleaseUrl name]) := by
    unfold resolve_step
    rw [if_neg (by simp [optTruthy])]
    rw [h1]
    dsimp only
    rw [h2]
  have hdu := download_update_eq_ok st hrs h3
  simp only [optTruthy, Bool.false_eq_true, if_false] at hdu
  unfold update_single
  rw [h1]
  dsimp only
  rw [if_neg (by rw [h0]; simp)]
  rw [hdu]
  dsimp only
  refine ⟨_, rfl, ?_⟩
  exact dictInsert_lookup_self _ _ _

/-- C10 witness: updating `alpha` on an empty registry succeeds and adds
its fresh record. -/
theorem C10_update_missing_tool_witness :
    stEmpty.tools.lookup "alpha" = none ∧
    ∃ st₂, update_single envA "alpha" stEmpty =
        (.ok (st₂, some resA),
         [apiReleaseUrl "alpha", apiReleaseUrl "alpha", resA.dl_url]) ∧
      st₂.tools.lookup "alpha" = some
        { version := resA.tag_name
          file := joinPath envA.download_dir resA.file_name
          os := envA.system
          installed_at := envA.now
          branch := none } :=
  ⟨rfl, C10_update_missing_tool envA "alpha" stEmpty relA resA rfl rfl rfl rfl⟩

/-- The per-tool outcomes of the `update --all` loop (lines 1499-1506):
each tool paired with its `update_single` result at the state produced by
its predecessors — a success advances the state, a failure leaves it
unchanged and the loop continues. -/
def update_run (envOf : String → DownloadEnv) :
    List String → State →
      List (String × Except String (State × Option Resolved))
  | [], _ => []
  | n :: rest, st =>
      match (update_single (envOf n) n st).1 with
      | .ok r => (n, .ok r) :: update_run envOf rest r.1
      | .error e => (n, .error e) :: update_run envOf rest st

/-- The name of a run entry when it failed, `none` on success. -/
def failedName (p : String × Except String (State × Option Resolved)) :
    Option String :=
  match p.2 with
  | .error _ => some p.1
  | .ok _ => none

/-- The echoed message of a run entry when it failed, carrying the actual
error, `none` on success. -/
def failedMessage (p : String × Except String (State × Option Resolved)) :
    Option String :=
  match p.2 with
  | .error e => some ("Failed to update " ++ p.1 ++ ": " ++ e)
  | .ok _ => none

theorem update_all_go_run_spec (envOf : String → DownloadEnv)
    (names : List String) (st : State) :
    (update_all_go envOf names st).attempted = names.length ∧
    (update_all_go envOf names st).failed =
      (update_run envOf names st).filterMap failedName ∧
    (update_all_go envOf names st).messages =
      (update_run envOf names st).filterMap failedMessage ∧
    (update_run envOf names st).map Prod.fst = names := by
  induction names generalizing st with
  | nil => exact ⟨rfl, rfl, rfl, rfl⟩
  | cons n rest ih =>
      unfold update_all_go update_run
      rcases hu : (update_single (envOf n) n st).1 with e | ⟨st', o⟩
      · dsimp only
        obtain ⟨ha, hf, hm, hnames⟩ := ih st
        refine ⟨by simp [ha], ?_, ?_, by simp [hnames]⟩
        · rw [List.filterMap_cons]
          dsimp only [failedName]
          rw [hf]
        · rw [List.filterMap_cons]
          dsimp only [failedMessage]
          rw [hm]
      · dsimp only
        obtain ⟨ha, hf, hm, hnames⟩ := ih st'
        refine ⟨by simp [ha], ?_, ?_, by simp [hnames]⟩
        · rw [List.filterMap_cons]
          dsimp only [failedName]
          exact hf
        · rw [List.filterMap_cons]
          dsimp only [failedMessage]
          exact hm

/-- C5: `update --all` over a registry of N tools attempts every tool — the
run visits exactly the registered names in order, failures included — and
the final report is exactly the projection of the actual per-tool outcomes:
`failed` lists precisely the tools whose `update_single` errored, in
iteration order, and each failure is echoed with its actual error as the
reason; successes are never recorded as failures. -/
theorem C5_update_all_reports (envOf : String → DownloadEnv) (st : State) :
    (update_all envOf st).attempted = st.tools.length ∧
    (update_run envOf (st.tools.map Prod.fst) st).map Prod.fst =
      st.tools.map Prod.fst ∧
    (update_all envOf st).failed =
      (update_run envOf (st.tools.map Prod.fst) st).filterMap failedName ∧
    (update_all envOf st).messages =
      (update_run envOf (st.tools.map Prod.fst) st).filterMap failedMessage := by
  obtain ⟨ha, hf, hm, hnames⟩ :=
    update_all_go_run_spec envOf (st.tools.map Prod.fst) st
  exact ⟨by simpa [update_all] using ha, hnames,
    by simpa [update_all] using hf, by simpa [update_all] using hm⟩

/-- An outdated record for `alpha` awaiting update. -/
def recO1 : ToolRecord :=
  { version := "v0", file := "/dl/alpha-old", os := "linux"
    installed_at := "t0", branch := none }

/-- An outdated record for `beta` awaiting update. -/
def recO2 : ToolRecord :=
  { version := "v0", file := "/dl/beta-old", os := "linux"
    installed_at := "t0", branch := none }

/-- A registry with the two outdated tools `alpha` and `beta`. -/
def st5 : State :=
  { tools := [("alpha", recO1), ("beta", recO2)]
    files := ["/dl/alpha-old", "/dl/beta-old"] }

/-- Per-tool environments where `alpha`'s metadata request fails with a
network error and `beta`'s run succeeds. -/
def envOf5 : String → DownloadEnv := fun n =>
  if n == "alpha" then envErr else envA

/-- Concrete mixed run of `update --all`: the first tool fails, the loop
continues, the second tool is updated, and the report carries exactly the
failing tool with its actual error as the reason. -/
theorem update_all_mixed_run :
    (update_all envOf5 st5).attempted = 2 ∧
    (update_all envOf5 st5).failed = ["alpha"] ∧
    (update_all envOf5 st5).messages =
      ["Failed to update alpha: ConnectionError"] ∧
    ((update_all envOf5 st5).final).tools.lookup "alpha" = some recO1 ∧
    ((update_all envOf5 st5).final).tools.lookup "beta" = some
      { version := "v1", file := "/dl/beta-v1-alpha-linux.tar.gz"
        os := "linux", installed_at := "t1", branch := none } :=
  ⟨rfl, rfl, rfl, rfl, rfl⟩

/-- C6 counterexample: on malformed JSON the message is logged at level
`ERROR`, not as a warning. -/
theorem C6_counterexample :
    load_tools_file (.invalidJson "Expecting value: line 1 column 1 (char 0)") =
      ([], [{ message := "Failed to parse tools.json: Expecting value: line 1 column 1 (char 0)"
              level := "ERROR" }]) ∧
    ("ERROR" : String) ≠ "WARNING" :=
  ⟨rfl, by decide⟩

/-- C6 amended: `load()` returns an empty registry when the store file is
missing, and an empty registry plus a single ERROR-level log line (not a
warning) when the file holds malformed JSON; in all cases it returns a
registry rather than propagating an error. -/
theorem C6_amended (e : String) (t : List (String × ToolRecord)) :
    load_tools_file .missing = ([], []) ∧
    (∃ entry : LogEntry, load_tools_file (.invalidJson e) = ([], [entry]) ∧
      entry.level = "ERROR" ∧
      entry.message = "Failed to parse tools.json: " ++ e) ∧
    load_tools_file (.registry t) = (t, []) :=
  ⟨rfl, ⟨_, rfl, rfl, rfl⟩, rfl⟩

/-- C7: for an installed tool, `remove` with `dry_run` leaves the whole
state (registry and files) untouched; without `dry_run` the registry entry
is always removed, and a missing artifact only yields the warning outcome
while the file system is left as it was. -/
theorem C7_remove_dry_and_wet (st : State) (name : String) (r : ToolRecord)
    (h : st.tools.lookup name = some r) :
    (remove st name true).1 = st ∧
    ((remove st name false).1).tools.lookup name = none ∧
    (st.files.contains r.file = false →
      (remove st name false).1.files = st.files ∧
      (remove st name false).2 = .removed true) := by
  unfold remove
  rw [h]
  dsimp only
  refine ⟨rfl, dictPop_lookup_self _ _, ?_⟩
  intro hf
  rw [hf]
  exact ⟨rfl, rfl⟩

/-- Local state where `alpha` is registered but its artifact file is
missing from disk. -/
def st7 : State := { tools := [("alpha", recA)], files := [] }

/-- C7 witness: removing `alpha` whose artifact file is already missing. -/
theorem C7_remove_dry_and_wet_witness :
    st7.tools.lookup "alpha" = some recA ∧
    st7.files.contains recA.file = false ∧
    (remove st7 "alpha" true).1 = st7 ∧
    ((remove st7 "alpha" false).1).tools.lookup "alpha" = none ∧
    (remove st7 "alpha" false).2 = .removed true := by
  have h := C7_remove_dry_and_wet st7 "alpha" recA rfl
  exact ⟨rfl, rfl, h.1, h.2.1, (h.2.2 rfl).2⟩

/-- C8 counterexample: with only `backup_foo.json` present, no file matches
the `backup_<N>` pattern, yet auto-naming does not produce `backup_1` — the
`max()` of an empty sequence raises and backup creation fails. -/
theorem C8_counterexample :
    backup_auto_name ["backup_foo.json"] =
      .error "max() arg is an empty sequence" ∧
    (backup_auto_name ["backup_foo.json"]).isOk = false :=
  ⟨rfl, rfl⟩

/-- C8 amended: with no `backup_*.json` file the snapshot is `backup_1`;
when some glob match yields an integer second component, the name is
`backup_<max+1>` (so `{backup_1, backup_2}` gives `backup_3`); but when
glob matches exist and none yields an integer, creation fails with
Python's empty-`max()` error. -/
theorem C8_amended (files : List String) :
    (backup_existing files = [] → backup_auto_name files = .ok "backup_1") ∧
    (∀ m, (backup_indices files).max? = some m →
      backup_auto_name files = .ok ("backup_" ++ toString (m + 1))) ∧
    (backup_existing files ≠ [] → backup_indices files = [] →
      backup_auto_name files = .error "max() arg is an empty sequence") ∧
    backup_auto_name ["backup_1.json", "backup_2.json"] = .ok "backup_3" := by
  refine ⟨?_, ?_, ?_, rfl⟩
  · intro h
    unfold backup_auto_name
    rw [if_pos (by rw [h]; rfl)]
  · intro m hm
    have hne : backup_indices files ≠ [] := by
      intro hnil
      rw [hnil] at hm
      simp at hm
    have hex : backup_existing files ≠ [] := by
      intro hnil
      apply hne
      unfold backup_indices
      rw [hnil]
      rfl
    unfold backup_auto_name
    rw [if_neg (by simp [List.isEmpty_iff, hex])]
    rw [hm]
  · intro hex hnil
    unfold backup_auto_name
    rw [if_neg (by simp [List.isEmpty_iff, hex])]
    rw [hnil]
    rfl

/-- C8 witness: both amended cases at concrete inputs — an empty backups
directory yields `backup_1`, and `{backup_1, backup_2}` yields `backup_3`. -/
theorem C8_amended_witness :
    backup_existing ([] : List String) = [] ∧
    backup_auto_name [] = .ok "backup_1" ∧
    (backup_indices ["backup_1.json", "backup_2.json"]).max? = some 2 ∧
    backup_auto_name ["backup_1.json", "backup_2.json"] =
      .ok ("backup_" ++ toString (2 + 1)) :=
  ⟨rfl, (C8_amended []).1 rfl,
   rfl, (C8_amended ["backup_1.json", "backup_2.json"]).2.1 2 rfl⟩

/-- A configuration holding a public key, a truthy debug flag, and a second
internal-marker key. -/
def cfg9 : List (String × ConfigVal) :=
  [("download_dir", .str "/d"), ("_debug", .bool true), ("_note", .str "x")]

/-- C9 counterexample: the internal-marker key `_note` is present before
`config delete --all` and gone afterwards — bulk delete does not preserve
internal keys other than a truthy `_debug`. -/
theorem C9_counterexample :
    cfg9.lookup "_note" = some (.str "x") ∧
    (config_delete_all cfg9).lookup "_note" = none :=
  ⟨rfl, rfl⟩

/-- C9 amended: underscore-prefixed keys are excluded from the user-facing
listing (and non-internal entries are all listed); bulk delete removes
every key except `_debug`, which survives with its value exactly when that
value is truthy. -/
theorem C9_amended (config : List (String × ConfigVal)) :
    (∀ k v, pyStartsWith k "_" = true → (k, v) ∉ config_list_rows config) ∧
    (∀ k v, pyStartsWith k "_" = false → (k, v) ∈ config →
      (k, pyStr v) ∈ config_list_rows config) ∧
    (config ≠ [] → ∀ k, k ≠ "_debug" →
      (config_delete_all config).lookup k = none) ∧
    (∀ v, config ≠ [] → config.lookup "_debug" = some v → truthyVal v = true →
      (config_delete_all config).lookup "_debug" = some v) ∧
    (∀ v, config ≠ [] → config.lookup "_debug" = some v → truthyVal v = false →
      config_delete_all config = []) ∧
    (config ≠ [] → config.lookup "_debug" = none →
      config_delete_all config = []) := by
  refine ⟨?_, ?_, ?_, ?_, ?_, ?_⟩
  · intro k v hk hmem
    rw [config_list_rows] at hmem
    obtain ⟨p, hp, heq⟩ := List.mem_filterMap.mp hmem
    by_cases hps : pyStartsWith p.1 "_" = true
    · rw [if_pos hps] at heq
      exact Option.noConfusion heq
    · rw [if_neg hps] at heq
      simp only [Option.some.injEq, Prod.mk.injEq] at heq
      exact hps (heq.1 ▸ hk)
  · intro k v hk hmem
    rw [config_list_rows]
    exact List.mem_filterMap.mpr ⟨(k, v), hmem, by rw [if_neg (by simp [hk])]⟩
  · intro hne k hk
    unfold config_delete_all
    rw [if_neg (by simp [List.isEmpty_iff, hne])]
    by_cases ht : truthyVal ((config.lookup "_debug").getD (.bool false)) = true
    · rw [if_pos ht]
      have : (k == "_debug") = false := beq_eq_false_iff_ne.mpr hk
      simp [List.lookup, this]
    · rw [if_neg ht]
      rfl
  · intro v hne hl ht
    unfold config_delete_all
    rw [if_neg (by simp [List.isEmpty_iff, hne])]
    rw [hl]
    dsimp only [Option.getD]
    rw [if_pos ht]
    simp [List.lookup]
  · intro v hne hl ht
    unfold config_delete_all
    rw [if_neg (by simp [List.isEmpty_iff, hne])]
    rw [hl]
    dsimp only [Option.getD]
    rw [if_neg (by simp [ht])]
  · intro hne hl
    unfold config_delete_all
    rw [if_neg (by simp [List.isEmpty_iff, hne])]
    rw [hl]
    rfl

/-- C9 witness: in `cfg9`, the truthy `_debug` flag survives bulk delete
with its value. -/
theorem C9_amended_witness :
    cfg9 ≠ [] ∧ cfg9.lookup "_debug" = some (.bool true) ∧
    truthyVal (.bool true) = true ∧
    (config_delete_all cfg9).lookup "_debug" = some (.bool true) :=
  ⟨by simp [cfg9], rfl, rfl,
   (C9_amended cfg9).2.2.2.1 (.bool true) (by simp [cfg9]) rfl rfl⟩

end Xecli
